import Mathlib

/-!
Verification development for the landlab `KinematicWaveRengers` overland-flow
component (`src/landlab/components/overland_flow/kinematic_wave_rengers.py`).

The component is embedded shallowly over exact rational arithmetic:

* numpy float arrays become `List ℚ`; the few numpy conventions the code
  relies on (negative-index wraparound, boolean-mask assignment with a
  compressed right-hand side, fancy-index gather/scatter, `clip`) are
  modelled by small explicit helpers below.
* the irrational scalar kernels of the Manning closure (`x ** 0.5`,
  `x ** 0.66666666`, `x ** -epsilon`, `sqrt(x^2 + y^2)`) have no exact
  rational counterpart, so they are carried as function-valued fields of
  `Params`; every general theorem holds for all instantiations, and the
  concrete counterexamples choose inputs at which the kernels are only
  evaluated at 0 and 1, where the chosen rational stand-ins agree with the
  real powers.
* Python exceptions become `Except PyErr`; a Python attribute that is only
  conditionally set (`self.hnew`, `self._internal_dt`) becomes an `Option`
  field of the state.
* the `while` loop of `run_one_step` is embedded with explicit fuel
  (`runLoop`); a `none` result means the fuel was exhausted with the loop
  still running, so termination of the source loop is the statement
  `∃ fuel, result is some`.

Grid-supplied quantities (node status codes, the mapped link gradients, the
adjacent-node table, the fixed-gradient node/anchor lists, spacings) are
inputs to the model: the grid abstraction is an external collaborator of
the component.
-/

namespace KinematicWave

/-- Python exception kinds raised (or constructed) by the component. -/
inductive PyErr where
  | valueError : PyErr
  | typeError : PyErr
  | attributeError : PyErr
  | nameError : PyErr
  deriving DecidableEq, Repr, Inhabited

/-- Rainfall input of `run_one_step`: a scalar rate, or one rate per node. -/
inductive Rain where
  | scalar : ℚ → Rain
  | array : List ℚ → Rain
  deriving DecidableEq, Repr, Inhabited

/-- Grid interface constant: status code of a core (interior) node. -/
def BC_NODE_IS_CORE : ℕ := 0

/-- Grid interface constant: status code of a fixed-value boundary node. -/
def BC_NODE_IS_FIXED_VALUE : ℕ := 1

/-- Grid interface constant: status code of a fixed-gradient boundary node. -/
def BC_NODE_IS_FIXED_GRADIENT : ℕ := 2

/-- Grid interface constant: status code of a closed boundary node. -/
def BC_NODE_IS_CLOSED : ℕ := 4

/-- Grid interface constant: the sentinel the adjacency table uses for a
missing neighbor, before the component normalizes it to `-1`. -/
def BAD_INDEX : ℤ := 9223372036854775807

/-- numpy `np.isclose(a, b)` with the default tolerances
`atol = 1e-8`, `rtol = 1e-5`: true iff `|a - b| ≤ atol + rtol * |b|`. -/
def npIsclose (a b : ℚ) : Bool := |a - b| ≤ 1 / 100000000 + |b| / 100000

/-- numpy integer indexing into a 1-d array: a negative index wraps around
from the end (`a[-1]` is the last element). Out-of-range reads default to 0;
all reads performed by the component are in range. -/
def npGet (l : List ℚ) (i : ℤ) : ℚ :=
  if i < 0 then l.getD (l.length - (-i).toNat) 0 else l.getD i.toNat 0

/-- Fancy-index gather `l[idx]` (a fresh copy, as in numpy). -/
def gather (l : List ℚ) (idx : List ℕ) : List ℚ := idx.map fun i => l.getD i 0

/-- Fancy-index assignment `l[idx] = vals` (positionally paired; with
duplicate indices the last write wins, as in numpy). -/
def scatter (l : List ℚ) (idx : List ℕ) (vals : List ℚ) : List ℚ :=
  (idx.zip vals).foldl (fun acc iv => acc.set iv.1 iv.2) l

/-- Boolean-mask compression `l[mask]`: the elements at the true positions,
in order. -/
def compress (l : List ℚ) (m : List Bool) : List ℚ :=
  ((l.zip m).filter fun p => p.2).map fun p => p.1

/-- Boolean-mask assignment `l[mask] = vals`: the right-hand side is a
compressed array consumed in order at the true positions of the mask. -/
def maskAssign : List ℚ → List Bool → List ℚ → List ℚ
  | [], _, _ => []
  | _ :: xs, true :: ms, v :: vs => v :: maskAssign xs ms vs
  | x :: xs, true :: ms, [] => x :: maskAssign xs ms []
  | x :: xs, false :: ms, vs => x :: maskAssign xs ms vs
  | x :: xs, [], vs => x :: maskAssign xs [] vs

/-- The positions (as indices) at which a predicate holds, in order: this is
`np.where(pred(arr))[0]`. -/
def idxWhere {α : Type} (l : List α) (pred : α → Bool) : List ℕ :=
  (l.enum.filter fun p => pred p.2).map fun p => p.1

/-- numpy `np.fabs(arr).max()` for a nonempty array; the fold from 0 is
equal to it because every `|x|` is nonnegative. -/
def maxAbs (l : List ℚ) : ℚ := l.foldl (fun m x => max m |x|) 0

/-- numpy scalar division, where dividing a finite numerator by zero yields
a non-finite value, represented as `none` (used with positive numerators,
for which numpy produces `+inf`). -/
def npDiv (a b : ℚ) : Option ℚ := if b = 0 then none else some (a / b)

/-- Builtin `min(x, r)` where `x` may be the non-finite result of a
division by zero (`none`, treated as larger than everything). -/
def minOptQ : Option ℚ → ℚ → ℚ
  | none, r => r
  | some v, r => min v r

/-- Configuration and grid-interface inputs of one component instance.

The function-valued fields model the irrational scalar kernels of the
source: `sqrtQ x` stands for `x ** 0.5` on nonnegative inputs,
`powTwoThirds x` for `x ** 0.66666666`, `powNegEps x` for
`x ** (-mannings_epsilon)`, and `hypot x y` for `sqrt(x^2 + y^2)`.
All general theorems below hold for every instantiation of these fields. -/
structure Params where
  /-- number of grid nodes -/
  N : ℕ
  /-- whether `isinstance(grid, RasterModelGrid)` holds -/
  gridIsRaster : Bool
  /-- per-node boundary status codes (length `N`) -/
  status : List ℕ
  /-- raw per-node adjacency (right, top, left, bottom), `BAD_INDEX` for a
  missing neighbor -/
  neighborsRaw : List (ℤ × ℤ × ℤ × ℤ)
  /-- grid spacings -/
  dx : ℚ
  dy : ℚ
  /-- link gradients of the elevation field mapped to nodes, horizontal and
  vertical (length `N` each) -/
  hozGrads : List ℚ
  vertGrads : List ℚ
  /-- grid list of fixed-gradient boundary nodes and their anchor nodes -/
  fixedGradNodes : List ℕ
  fixedGradAnchors : List ℕ
  /-- initial contents of the shared `surface_water__depth` field -/
  h0 : List ℚ
  /-- `mannings_n` -/
  n : ℚ
  /-- `critical_flow_depth` -/
  hc : ℚ
  /-- `dt_max` (`none` is the Python `None`) -/
  dtMax : Option ℚ
  /-- `max_courant` -/
  maxCourant : ℚ
  /-- `min_surface_water_depth` -/
  minDepth : ℚ
  sqrtQ : ℚ → ℚ
  powTwoThirds : ℚ → ℚ
  powNegEps : ℚ → ℚ
  hypot : ℚ → ℚ → ℚ
  deriving Inhabited

/-- Mutable state of one component instance: the shared fields it writes,
and the caches set up by `__init__` / `update_topographic_params`. -/
structure KWState where
  /-- the shared `surface_water__depth` field (`self._h`, length `N`) -/
  h : List ℚ
  /-- `self._active`: cached active-node index list -/
  active : List ℕ
  /-- `self.hozslopept5`, `self.vertslopept5` (per active node) -/
  hozslopept5 : List ℚ
  vertslopept5 : List ℚ
  /-- `self.velx`, `self.vely` (length `N`) -/
  velx : List ℚ
  vely : List ℚ
  /-- `self.qx`, `self.qy` (length `N + 1`: one extra trailing slot) -/
  qx : List ℚ
  qy : List ℚ
  /-- `self.poshozgrads`, `self.posvertgrads` (length `N`) -/
  poshozgrads : List Bool
  posvertgrads : List Bool
  /-- `self._neighbors`: adjacency with missing neighbors normalized to -1 -/
  neighbors : List (ℤ × ℤ × ℤ × ℤ)
  /-- `self.actives_BCs`: mask over the active list of fixed-value nodes -/
  activesBCs : List Bool
  /-- `self.actives_BCs_water_depth`: the pinned constants, compressed -/
  activesBCsWaterDepth : List ℚ
  /-- `self.fixed_grad_nodes_active`, `self.fixed_grad_anchors_active`:
  positions within the active list -/
  fixedGradNodesActive : List ℕ
  fixedGradAnchorsActive : List ℕ
  /-- `self._water_balance` -/
  waterBalance : List ℚ
  /-- `self.equaldims` and `self.courant_prefactor` -/
  equaldims : Bool
  courantPrefactor : ℚ
  /-- `self.hnew` (attribute only set once `run_one_step` has started) -/
  hnewAttr : Option (List ℚ)
  /-- `self._internal_dt` (attribute only set once `calc_grads_and_timesteps`
  has run; the inner `Option ℚ` is `none` when the cached value is the
  non-finite result of a division by zero) -/
  internalDtAttr : Option (Option ℚ)
  /-- the shared `surface_water__velocity` and `surface_water__discharge`
  magnitude output fields -/
  velocityOut : List ℚ
  dischargeOut : List ℚ
  deriving DecidableEq, Repr, Inhabited

/-- Normalize one raw adjacency entry: `BAD_INDEX` becomes `-1`
(source: `self._neighbors[self._neighbors == BAD_INDEX] = -1`). -/
def normNeighbor (v : ℤ) : ℤ := if v = BAD_INDEX then -1 else v

/-- Embedding of `KinematicWaveRengers.__init__` (source lines 143-206).

Two faithfulness notes on the failure checks:
* the source line `if not isinstance(grid, RasterModelGrid): ValueError(...)`
  constructs the exception object but never raises it, so a non-raster grid
  does not fail construction; the branch is modelled as a no-op;
* `np.isclose(dt_max, 0.0)` raises `TypeError` when `dt_max` is `None`, and
  otherwise is `|dt_max| ≤ 1e-8` (so only near-zero values are rejected,
  with a `ValueError`). -/
def kwInit (p : Params) : Except PyErr KWState :=
  -- `if not isinstance(grid, RasterModelGrid): ValueError(...)` -- not raised
  let _unusedRasterCheck := p.gridIsRaster
  match p.dtMax with
  | none => .error .typeError
  | some d =>
    if npIsclose d 0 then .error .valueError
    else
      -- active = np.where(status_at_node != BC_NODE_IS_CORE)[0]
      let active := idxWhere p.status fun s => decide (s ≠ BC_NODE_IS_CORE)
      let hozslopept5 := (gather p.hozGrads active).map fun g => p.sqrtQ |g|
      let vertslopept5 := (gather p.vertGrads active).map fun g => p.sqrtQ |g|
      let equaldims := npIsclose p.dx p.dy
      let courantPrefactor :=
        if equaldims then p.maxCourant * p.dx else p.maxCourant * p.dx * p.dy
      let activesBCs :=
        (active.map fun i => p.status.getD i 0).map
          fun s => decide (s = BC_NODE_IS_FIXED_VALUE)
      .ok
        { h := p.h0
          active := active
          hozslopept5 := hozslopept5
          vertslopept5 := vertslopept5
          velx := List.replicate p.N 0
          vely := List.replicate p.N 0
          qx := List.replicate (p.N + 1) 0
          qy := List.replicate (p.N + 1) 0
          poshozgrads := p.hozGrads.map fun g => decide (0 < g)
          posvertgrads := p.vertGrads.map fun g => decide (0 < g)
          neighbors := p.neighborsRaw.map fun t =>
            (normNeighbor t.1, normNeighbor t.2.1,
             normNeighbor t.2.2.1, normNeighbor t.2.2.2)
          activesBCs := activesBCs
          activesBCsWaterDepth := compress (gather p.h0 active) activesBCs
          fixedGradNodesActive :=
            idxWhere active fun a => p.fixedGradNodes.contains a
          fixedGradAnchorsActive :=
            idxWhere active fun a => p.fixedGradAnchors.contains a
          waterBalance := []
          equaldims := equaldims
          courantPrefactor := courantPrefactor
          hnewAttr := none
          internalDtAttr := none
          velocityOut := List.replicate p.N 0
          dischargeOut := List.replicate p.N 0 }

/-- Embedding of `KinematicWaveRengers.update_topographic_params`
(source lines 334-369).

The first statement of the source body evaluates the global name
`CLOSED_BOUNDARY`, which is bound nowhere in the module (it is neither
defined nor imported), so every call raises `NameError` before any cached
state is touched. (Were the name bound, the next statement would also fail:
`self.grid.calculate_gradients_at_links` is not a method of the grid.) -/
def updateTopographicParams (st : KWState) : Except PyErr KWState :=
  let _unusedState := st
  .error .nameError

/-- The stability denominator of the Courant criterion (source lines
319-325): `maxvelx + maxvely` when the spacings are (close to) equal,
`dy * maxvelx + dx * maxvely` otherwise. -/
def courantDenom (p : Params) (equaldims : Bool) (maxvelx maxvely : ℚ) :
    ℚ :=
  if equaldims then maxvelx + maxvely
  else p.dy * maxvelx + p.dx * maxvely

/-- `np.min((self.dt_max, courant_dt))` extended to a `None` `dt_max` and
to a non-finite Courant value (source lines 326-329). -/
def combineDt : Option ℚ → Option ℚ → Option ℚ
  | some m, some c => some (min m c)
  | some m, none => some m
  | none, c => c

/-- The always-succeeding body of `calc_grads_and_timesteps` (source lines
302-332), run on the working depth copy `hnew0`: clamp the working depths
to the floor, optionally append a mass-imbalance sample, compute
velocities and face discharges from the depth-varying Manning closure, and
derive the stable sub-step.

The returned `Option ℚ` is the internal timestep; `none` is the non-finite
value numpy produces when the Courant ratio divides by a zero maximum
velocity and no finite `dt_max` bounds it. -/
def calcCore (p : Params) (trackMinDepth : Bool) (st : KWState)
    (hnew0 : List ℚ) : Option ℚ × KWState :=
  -- hnew.clip(self.min_surface_water_depth, out=hnew)
  let hnew := hnew0.map fun x => max p.minDepth x
  let hAtActive := gather st.h st.active
  let wb :=
    if trackMinDepth then
      st.waterBalance ++
        [(List.zipWith (fun a b => a - b) hnew hAtActive).sum /
          hAtActive.sum]
    else st.waterBalance
  -- n = self._n * (hnew / self._hc) ** self._negepsilon
  let neff := hnew.map fun x => p.n * p.powNegEps (x / p.hc)
  -- twothirdshnewbyn = hnew ** 0.66666666 / n
  let tth := List.zipWith (fun x nf => p.powTwoThirds x / nf) hnew neff
  let vely1 := scatter st.vely st.active
    (List.zipWith (fun t s => t * s) tth st.vertslopept5)
  let velx1 := scatter st.velx st.active
    (List.zipWith (fun t s => t * s) tth st.hozslopept5)
  -- self.vely[self.posvertgrads] *= -1.0 (and likewise for velx)
  let vely2 := List.zipWith (fun v m => if m then -v else v)
    vely1 st.posvertgrads
  let velx2 := List.zipWith (fun v m => if m then -v else v)
    velx1 st.poshozgrads
  let qy1 := scatter st.qy st.active
    (List.zipWith (fun v x => v * x) (gather vely2 st.active) hnew)
  let qx1 := scatter st.qx st.active
    (List.zipWith (fun v x => v * x) (gather velx2 st.active) hnew)
  let courantDt :=
    npDiv st.courantPrefactor
      (courantDenom p st.equaldims (maxAbs velx2) (maxAbs vely2))
  let internalDt := combineDt p.dtMax courantDt
  (internalDt,
    { st with
      hnewAttr := some hnew
      waterBalance := wb
      vely := vely2
      velx := velx2
      qy := qy1
      qx := qx1
      internalDtAttr := some internalDt })

/-- Embedding of `KinematicWaveRengers.calc_grads_and_timesteps`
(source lines 278-332): read the working copy attribute (an
`AttributeError` if `run_one_step` has not set it), run the optional
topography refresh, then the computation body `calcCore`. -/
def calcGrads (p : Params) (updateTopography trackMinDepth : Bool)
    (st : KWState) : Except PyErr (Option ℚ × KWState) :=
  match st.hnewAttr with
  | none => .error .attributeError  -- `self.hnew` not yet set
  | some hnew0 =>
    match
      (if updateTopography then updateTopographicParams st else .ok st :
        Except PyErr KWState) with
    | .error e => .error e
    | .ok st => .ok (calcCore p trackMinDepth st hnew0)

/-- Adds the rainfall contribution of one sub-step
(`hnew += internal_dt * rainfall_intensity`, with a per-node rate gathered
at the active nodes in the array case). -/
def rainStage (idt : ℚ) (rain : Rain) (active : List ℕ) (hnew : List ℚ) :
    List ℚ :=
  match rain with
  | .scalar r => hnew.map fun x => x + idt * r
  | .array l =>
    List.zipWith (fun x a => x + idt * l.getD a 0) hnew active

/-- Pins the fixed-value boundary nodes to their configured constants
(`hnew[self.actives_BCs] = self.actives_BCs_water_depth`). -/
def pinStage (activesBCs : List Bool) (consts : List ℚ) (hnew : List ℚ) :
    List ℚ :=
  maskAssign hnew activesBCs consts

/-- One face-flux decomposition array, e.g.
`qx_left = self.qx[self._neighbors[:, 2]].clip(min=0.0)`. -/
def fluxGather (q : List ℚ) (nbs : List ℤ) (lo : Bool) : List ℚ :=
  nbs.map fun i => if lo then max 0 (npGet q i) else min 0 (npGet q i)

/-- The flux part of one sub-step (source lines 243-247 and 261-264):
decompose the signed discharges into incoming and outgoing components via
the opposite-direction neighbor lookups, then apply the conservative
update at the active nodes. -/
def fluxStage (p : Params) (idt : ℚ) (st : KWState) (hnew : List ℚ) :
    List ℚ :=
  let qxLeft := fluxGather st.qx (st.neighbors.map fun t => t.2.2.1) true
  let qxRight := fluxGather st.qx (st.neighbors.map fun t => t.1) false
  let qyTop := fluxGather st.qy (st.neighbors.map fun t => t.2.1) true
  let qyBottom := fluxGather st.qy (st.neighbors.map fun t => t.2.2.2) false
  let qyDiff := List.zipWith (fun a b => a - b) qyTop qyBottom
  let qxDiff := List.zipWith (fun a b => a - b) qxLeft qxRight
  let h1 := List.zipWith (fun x a => x - idt / p.dx * |st.qy.getD a 0|)
    hnew st.active
  let h2 := List.zipWith (fun x a => x - idt / p.dy * |st.qx.getD a 0|)
    h1 st.active
  let h3 := List.zipWith (fun x a => x + idt / p.dx * qyDiff.getD a 0)
    h2 st.active
  List.zipWith (fun x a => x + idt / p.dy * qxDiff.getD a 0) h3 st.active

/-- The fixed-gradient copy
(`hnew[self.fixed_grad_nodes_active] = hnew[self.fixed_grad_anchors_active]`):
the right-hand side is gathered before any assignment happens. -/
def fixedGradStage (nodes anchors : List ℕ) (hnew : List ℚ) : List ℚ :=
  scatter hnew nodes (gather hnew anchors)

/-- One iteration of the sub-step loop of `run_one_step` (source lines
236-267), returning the new state, the new elapsed time and the clipped
internal timestep actually used. -/
def subStep (p : Params) (dt : ℚ) (rain : Rain)
    (updateTopography trackMinDepth : Bool) (st : KWState) (elapsed : ℚ) :
    Except PyErr (KWState × ℚ × ℚ) :=
  match calcGrads p updateTopography trackMinDepth st with
  | .error e => .error e
  | .ok r =>
    let internalDtRaw := r.1
    let st1 := r.2
    let remaining := dt - elapsed
    -- internal_dt = min(internal_dt, remaining_dt).clip(0.0)
    let idt := max 0 (minOptQ internalDtRaw remaining)
    match st1.hnewAttr with
    | none => .error .attributeError
    | some hnew0 =>
      let hnew1 := rainStage idt rain st1.active hnew0
      let hnew2 := pinStage st1.activesBCs st1.activesBCsWaterDepth hnew1
      let hnew3 := fluxStage p idt st1 hnew2
      let hnew4 :=
        fixedGradStage st1.fixedGradNodesActive st1.fixedGradAnchorsActive
          hnew3
      .ok ({ st1 with hnewAttr := some hnew4 }, elapsed + idt, idt)

/-- The `while elapsed_time_in_dt < dt` loop of `run_one_step`, with
explicit fuel. A `.ok none` result means the fuel ran out with the loop
still running; `.ok (some (st, elapsed, dts))` means the loop exited with
the given final state and elapsed time, having used the sub-step lengths
`dts` (a ghost trace, recorded for the statements about sub-step sums). -/
def runLoop (p : Params) (dt : ℚ) (rain : Rain)
    (updateTopography trackMinDepth : Bool) :
    ℕ → KWState → ℚ → Except PyErr (Option (KWState × ℚ × List ℚ))
  | 0, st, elapsed =>
    if elapsed < dt then .ok none else .ok (some (st, elapsed, []))
  | fuel + 1, st, elapsed =>
    if elapsed < dt then
      match subStep p dt rain updateTopography trackMinDepth st elapsed with
      | .error e => .error e
      | .ok r =>
        match runLoop p dt rain updateTopography trackMinDepth fuel r.1
            r.2.1 with
        | .error e => .error e
        | .ok none => .ok none
        | .ok (some trip) =>
          .ok (some (trip.1, trip.2.1, r.2.2 :: trip.2.2))
    else .ok (some (st, elapsed, []))

/-- Embedding of `KinematicWaveRengers.run_one_step` (source lines
208-276): take a working copy of the depths at the active nodes, run the
sub-step loop, write the result back into the shared depth field and
refresh the magnitude output fields. The result is `none` when the fuel
was exhausted, else the final state and the ghost trace of sub-step
lengths. -/
def runOneStep (p : Params) (fuel : ℕ) (dt : ℚ) (rain : Rain)
    (updateTopography trackMinDepth : Bool) (st : KWState) :
    Except PyErr (Option (KWState × List ℚ)) :=
  let st0 := { st with hnewAttr := some (gather st.h st.active) }
  match
    (if updateTopography then updateTopographicParams st0
     else .ok st0 : Except PyErr KWState) with
  | .error e => .error e
  | .ok st1 =>
    match runLoop p dt rain updateTopography trackMinDepth fuel st1 0 with
    | .error e => .error e
    | .ok none => .ok none
    | .ok (some (st2, _, ds)) =>
      match st2.hnewAttr with
      | none => .error .attributeError
      | some hnew =>
        let hOut := scatter st2.h st2.active hnew
        let velOut := List.zipWith p.hypot st2.velx st2.vely
        let qOut := List.zipWith p.hypot st2.qx.dropLast st2.qy.dropLast
        .ok (some ({ st2 with
          h := hOut
          velocityOut := velOut
          dischargeOut := qOut }, ds))

/-- Embedding of the `water_balance` property (source lines 371-380). -/
def waterBalanceProp (st : KWState) : Except PyErr (List ℚ) :=
  if st.waterBalance = [] then .error .valueError else .ok st.waterBalance

/-- Embedding of the `internal_timestep` property (source lines 382-392):
return the cached value; if the attribute is missing (the component has
not run yet), fall back to a fresh `calc_grads_and_timesteps(False, False)`
call. Any exception the fallback raises propagates. -/
def internalTimestep (p : Params) (st : KWState) :
    Except PyErr (Option ℚ × KWState) :=
  match st.internalDtAttr with
  | some v => .ok (v, st)
  | none =>
    match calcGrads p false false st with
    | .error e => .error e
    | .ok (v, st1) => .ok (v, st1)

/-! ### Concrete instances

The configurations below are small grid-interface instances used to
evaluate the embedded component on closed inputs. The scalar kernels are
instantiated with rational stand-ins; every concrete run below only
evaluates them at 0 and 1, where `fun x => x` agrees with the real
`x ** 0.5`, `x ** 0.66666666` and `x ** (-epsilon)` kernels. -/

/-- Identity stand-in for the power kernels (exact at inputs 0 and 1). -/
def idK : ℚ → ℚ := fun x => x

/-- Stand-in for the `sqrt(x^2 + y^2)` magnitude kernel (exact whenever one
argument is zero). -/
def hypotK : ℚ → ℚ → ℚ := fun x y => |x| + |y|

/-- Final shared depth field of a finished `runOneStep` result. -/
def finalDepths : Except PyErr (Option (KWState × List ℚ)) → Option (List ℚ)
  | .ok (some (st, _)) => some st.h
  | _ => none

/-- Ghost trace of sub-step lengths of a finished `runOneStep` result. -/
def substepTrace : Except PyErr (Option (KWState × List ℚ)) → Option (List ℚ)
  | .ok (some (_, ds)) => some ds
  | _ => none

/-- Whether an `Except` result is a success. -/
def exceptOk {ε α : Type} : Except ε α → Bool
  | .ok _ => true
  | .error _ => false

/-- A two-node grid-interface instance: node 0 is a fixed-value boundary
node, node 1 a closed node lying to its right with unit topographic
gradient toward node 0; unit spacing, unit depths, default floor. Under
the source active-set rule (status different from core) both nodes are
active. -/
def pCex : Params :=
  { N := 2
    gridIsRaster := true
    status := [BC_NODE_IS_FIXED_VALUE, BC_NODE_IS_CLOSED]
    neighborsRaw := [(1, BAD_INDEX, BAD_INDEX, BAD_INDEX),
                     (BAD_INDEX, BAD_INDEX, 0, BAD_INDEX)]
    dx := 1
    dy := 1
    hozGrads := [0, 1]
    vertGrads := [0, 0]
    fixedGradNodes := []
    fixedGradAnchors := []
    h0 := [1, 1]
    n := 1
    hc := 1
    dtMax := some (3 / 10)
    maxCourant := 1 / 5
    minDepth := 1 / 100000000
    sqrtQ := idK
    powTwoThirds := idK
    powNegEps := idK
    hypot := hypotK }

/-- The state `kwInit pCex` constructs, written out. -/
def stCex : KWState :=
  { h := [1, 1]
    active := [0, 1]
    hozslopept5 := [0, 1]
    vertslopept5 := [0, 0]
    velx := [0, 0]
    vely := [0, 0]
    qx := [0, 0, 0]
    qy := [0, 0, 0]
    poshozgrads := [false, true]
    posvertgrads := [false, false]
    neighbors := [(1, -1, -1, -1), (-1, -1, 0, -1)]
    activesBCs := [true, false]
    activesBCsWaterDepth := [1]
    fixedGradNodesActive := []
    fixedGradAnchorsActive := []
    waterBalance := []
    equaldims := true
    courantPrefactor := 1 / 5
    hnewAttr := none
    internalDtAttr := none
    velocityOut := [0, 0]
    dischargeOut := [0, 0] }

lemma kwInit_pCex : kwInit pCex = .ok stCex := by
  norm_num [kwInit, pCex, stCex, idxWhere, gather, compress, npIsclose,
    normNeighbor, BAD_INDEX, BC_NODE_IS_CORE, BC_NODE_IS_FIXED_VALUE,
    BC_NODE_IS_CLOSED, List.enum, List.enumFrom, List.replicate, idK,
    abs_of_nonneg, abs_of_nonpos]

/-- `stCex` with the working copy `self.hnew` taken at the start of
`run_one_step`. -/
def stCexH : KWState := { stCex with hnewAttr := some [1, 1] }

/-- The state after the first `calc_grads_and_timesteps` call on `stCexH`:
node 1 acquires leftward unit velocity and discharge, and the stable
sub-step `1/5` is cached. -/
def stCexA : KWState :=
  { stCexH with
    velx := [0, -1]
    qx := [0, -1, 0]
    internalDtAttr := some (some (1 / 5)) }

/-- The state after one full sub-step of length `1/5` from `stCexH`: the
fixed-value node 0 has gained the inflow `1/5` on top of its pinned
constant 1, node 1 has lost the same outflow. -/
def stCexB : KWState := { stCexA with hnewAttr := some [6 / 5, 4 / 5] }

/-- The state `run_one_step` returns from `stCex`: working depths written
back to the shared field, magnitude fields refreshed. -/
def stCexF : KWState :=
  { stCexB with
    h := [6 / 5, 4 / 5]
    velocityOut := [0, 1]
    dischargeOut := [0, 1] }

lemma calcGrads_stCexH :
    calcGrads pCex false false stCexH = .ok (some (1 / 5), stCexA) := by
  norm_num [calcGrads, calcCore, courantDenom, combineDt, pCex, stCex,
    stCexH, stCexA, gather, scatter,
    maxAbs, npDiv, idK, abs_of_nonneg, abs_of_nonpos, max_def, min_def,
    List.set, List.foldl]

lemma subStep_stCexH :
    subStep pCex (1 / 5) (Rain.scalar 0) false false stCexH 0
      = .ok (stCexB, 1 / 5, 1 / 5) := by
  rw [subStep, calcGrads_stCexH]
  norm_num [pCex, stCex, stCexH, stCexA, stCexB, rainStage, pinStage,
    fluxStage, fluxGather, fixedGradStage, maskAssign, gather, scatter,
    npGet, minOptQ, max_def, min_def, abs_of_nonneg, abs_of_nonpos,
    List.set, List.foldl]

lemma runLoop_stCexH :
    runLoop pCex (1 / 5) (Rain.scalar 0) false false 2 stCexH 0
      = .ok (some (stCexB, 1 / 5, [1 / 5])) := by
  norm_num [runLoop, subStep_stCexH]

lemma runOneStep_pCex :
    runOneStep pCex 2 (1 / 5) (Rain.scalar 0) false false stCex
      = .ok (some (stCexF, [1 / 5])) := by
  have h0 : { stCex with hnewAttr := some (gather stCex.h stCex.active) }
      = stCexH := by
    norm_num [stCex, stCexH, gather]
  rw [runOneStep, h0]
  simp only [Bool.false_eq_true, if_false, runLoop_stCexH]
  norm_num [stCexA, stCexB, stCexF, stCexH, stCex, pCex,
    gather, scatter, hypotK, abs_of_nonneg, abs_of_nonpos, List.set]

/-- The two-node instance with the minimum-depth floor raised to 1: the
initial unit depths sit exactly at the floor, so the clamp is the
identity and the run from `stCex` is unchanged. -/
def pFloor : Params := { pCex with minDepth := 1 }

lemma calcGrads_floor_stCexH :
    calcGrads pFloor false false stCexH = .ok (some (1 / 5), stCexA) := by
  norm_num [calcGrads, calcCore, courantDenom, combineDt, pFloor, pCex,
    stCex, stCexH, stCexA, gather, scatter,
    maxAbs, npDiv, idK, abs_of_nonneg, abs_of_nonpos, max_def, min_def,
    List.set, List.foldl]

lemma subStep_floor_stCexH :
    subStep pFloor (1 / 5) (Rain.scalar 0) false false stCexH 0
      = .ok (stCexB, 1 / 5, 1 / 5) := by
  rw [subStep, calcGrads_floor_stCexH]
  norm_num [pFloor, pCex, stCex, stCexH, stCexA, stCexB, rainStage,
    pinStage, fluxStage, fluxGather, fixedGradStage, maskAssign, gather,
    scatter, npGet, minOptQ, max_def, min_def, abs_of_nonneg,
    abs_of_nonpos, List.set, List.foldl]

lemma runLoop_floor_stCexH :
    runLoop pFloor (1 / 5) (Rain.scalar 0) false false 2 stCexH 0
      = .ok (some (stCexB, 1 / 5, [1 / 5])) := by
  norm_num [runLoop, subStep_floor_stCexH]

lemma runOneStep_pFloor :
    runOneStep pFloor 2 (1 / 5) (Rain.scalar 0) false false stCex
      = .ok (some (stCexF, [1 / 5])) := by
  have h0 : { stCex with hnewAttr := some (gather stCex.h stCex.active) }
      = stCexH := by
    norm_num [stCex, stCexH, gather]
  rw [runOneStep, h0]
  simp only [Bool.false_eq_true, if_false, runLoop_floor_stCexH]
  norm_num [stCexA, stCexB, stCexF, stCexH, stCex, pFloor, pCex,
    gather, scatter, hypotK, abs_of_nonneg, abs_of_nonpos, List.set]

/-- A one-node instance with flat terrain: no velocity ever arises, the
Courant ratio divides by zero (numpy infinity), and every sub-step is the
configured `dt_max = 3/10`. -/
def pFlat : Params :=
  { N := 1
    gridIsRaster := true
    status := [BC_NODE_IS_FIXED_VALUE]
    neighborsRaw := [(BAD_INDEX, BAD_INDEX, BAD_INDEX, BAD_INDEX)]
    dx := 1
    dy := 1
    hozGrads := [0]
    vertGrads := [0]
    fixedGradNodes := []
    fixedGradAnchors := []
    h0 := [1]
    n := 1
    hc := 1
    dtMax := some (3 / 10)
    maxCourant := 1 / 5
    minDepth := 1 / 100000000
    sqrtQ := idK
    powTwoThirds := idK
    powNegEps := idK
    hypot := hypotK }

/-- The state `kwInit pFlat` constructs. -/
def stFlat : KWState :=
  { h := [1]
    active := [0]
    hozslopept5 := [0]
    vertslopept5 := [0]
    velx := [0]
    vely := [0]
    qx := [0, 0]
    qy := [0, 0]
    poshozgrads := [false]
    posvertgrads := [false]
    neighbors := [(-1, -1, -1, -1)]
    activesBCs := [true]
    activesBCsWaterDepth := [1]
    fixedGradNodesActive := []
    fixedGradAnchorsActive := []
    waterBalance := []
    equaldims := true
    courantPrefactor := 1 / 5
    hnewAttr := none
    internalDtAttr := none
    velocityOut := [0]
    dischargeOut := [0] }

/-- `stFlat` with the working copy taken; also the state after the single
flat sub-step of length `3/10`, since nothing moves. -/
def stFlatH : KWState := { stFlat with hnewAttr := some [1] }

/-- `stFlatH` after one `calc_grads_and_timesteps` call. -/
def stFlatA : KWState :=
  { stFlatH with internalDtAttr := some (some (3 / 10)) }

lemma kwInit_pFlat : kwInit pFlat = .ok stFlat := by
  norm_num [kwInit, pFlat, stFlat, idxWhere, gather, compress, npIsclose,
    normNeighbor, BAD_INDEX, BC_NODE_IS_CORE, BC_NODE_IS_FIXED_VALUE,
    List.enum, List.enumFrom, List.replicate, idK,
    abs_of_nonneg, abs_of_nonpos]

lemma calcGrads_stFlatH :
    calcGrads pFlat false false stFlatH = .ok (some (3 / 10), stFlatA) := by
  norm_num [calcGrads, calcCore, courantDenom, combineDt, pFlat, stFlat,
    stFlatH, stFlatA, gather, scatter,
    maxAbs, npDiv, idK, abs_of_nonneg, abs_of_nonpos, max_def, min_def,
    List.set, List.foldl]

lemma subStep_stFlatH :
    subStep pFlat (3 / 10) (Rain.scalar 0) false false stFlatH 0
      = .ok (stFlatA, 3 / 10, 3 / 10) := by
  rw [subStep, calcGrads_stFlatH]
  norm_num [pFlat, stFlat, stFlatH, stFlatA, rainStage, pinStage,
    fluxStage, fluxGather, fixedGradStage, maskAssign, gather, scatter,
    npGet, minOptQ, max_def, min_def, abs_of_nonneg, abs_of_nonpos,
    List.set, List.foldl]

lemma runLoop_stFlatH :
    runLoop pFlat (3 / 10) (Rain.scalar 0) false false 2 stFlatH 0
      = .ok (some (stFlatA, 3 / 10, [3 / 10])) := by
  norm_num [runLoop, subStep_stFlatH]

lemma runOneStep_pFlat :
    runOneStep pFlat 2 (3 / 10) (Rain.scalar 0) false false stFlat
      = .ok (some (stFlatA, [3 / 10])) := by
  have h0 : { stFlat with hnewAttr := some (gather stFlat.h stFlat.active) }
      = stFlatH := by
    norm_num [stFlat, stFlatH, gather]
  rw [runOneStep, h0]
  simp only [Bool.false_eq_true, if_false, runLoop_stFlatH]
  norm_num [stFlatA, stFlatH, stFlat, pFlat,
    gather, scatter, hypotK, abs_of_nonneg, abs_of_nonpos, List.set]

/-! ### General lemmas about the embedded operations -/

lemma foldl_max_abs_init (l : List ℚ) :
    ∀ b : ℚ, b ≤ l.foldl (fun m x => max m |x|) b := by
  induction l with
  | nil => intro b; exact le_refl b
  | cons x xs ih =>
    intro b
    exact le_trans (le_max_left b |x|) (ih (max b |x|))

lemma maxAbs_nonneg (l : List ℚ) : 0 ≤ maxAbs l :=
  foldl_max_abs_init l 0

lemma minOptQ_le_right (o : Option ℚ) (r : ℚ) : minOptQ o r ≤ r := by
  cases o with
  | none => exact le_refl r
  | some v => exact min_le_right v r

lemma calcCore_hnewAttr (p : Params) (t : Bool) (st : KWState)
    (l : List ℚ) :
    (calcCore p t st l).2.hnewAttr = some (l.map fun x => max p.minDepth x) :=
  rfl

lemma calcCore_active (p : Params) (t : Bool) (st : KWState) (l : List ℚ) :
    (calcCore p t st l).2.active = st.active := rfl

lemma calcCore_h (p : Params) (t : Bool) (st : KWState) (l : List ℚ) :
    (calcCore p t st l).2.h = st.h := rfl

lemma calcCore_equaldims (p : Params) (t : Bool) (st : KWState)
    (l : List ℚ) : (calcCore p t st l).2.equaldims = st.equaldims := rfl

lemma calcCore_courantPrefactor (p : Params) (t : Bool) (st : KWState)
    (l : List ℚ) :
    (calcCore p t st l).2.courantPrefactor = st.courantPrefactor := rfl

lemma calcCore_activesBCs (p : Params) (t : Bool) (st : KWState)
    (l : List ℚ) : (calcCore p t st l).2.activesBCs = st.activesBCs := rfl

lemma calcCore_activesBCsWaterDepth (p : Params) (t : Bool) (st : KWState)
    (l : List ℚ) :
    (calcCore p t st l).2.activesBCsWaterDepth = st.activesBCsWaterDepth :=
  rfl

lemma calcCore_waterBalance_len (p : Params) (t : Bool) (st : KWState)
    (l : List ℚ) :
    (calcCore p t st l).2.waterBalance.length
      = st.waterBalance.length + (if t then 1 else 0) := by
  cases t <;> simp [calcCore]

lemma calcCore_qxEq (p : Params) (t : Bool) (st : KWState) (l : List ℚ) :
    (calcCore p t st l).2.qx
      = scatter st.qx st.active
          (List.zipWith (fun v x => v * x)
            (gather (calcCore p t st l).2.velx st.active)
            (l.map fun x => max p.minDepth x)) := rfl

lemma calcCore_qyEq (p : Params) (t : Bool) (st : KWState) (l : List ℚ) :
    (calcCore p t st l).2.qy
      = scatter st.qy st.active
          (List.zipWith (fun v x => v * x)
            (gather (calcCore p t st l).2.vely st.active)
            (l.map fun x => max p.minDepth x)) := rfl

lemma calcCore_fst (p : Params) (t : Bool) (st : KWState) (l : List ℚ) :
    (calcCore p t st l).1
      = combineDt p.dtMax
          (npDiv st.courantPrefactor
            (courantDenom p st.equaldims
              (maxAbs (calcCore p t st l).2.velx)
              (maxAbs (calcCore p t st l).2.vely))) := rfl

lemma calcCore_internalDtAttr (p : Params) (t : Bool) (st : KWState)
    (l : List ℚ) :
    (calcCore p t st l).2.internalDtAttr = some (calcCore p t st l).1 := rfl

lemma calcGrads_some (p : Params) (t : Bool) (st : KWState) (l : List ℚ)
    (h : st.hnewAttr = some l) :
    calcGrads p false t st = .ok (calcCore p t st l) := by
  simp [calcGrads, h]

lemma calcGrads_noAttr (p : Params) (u t : Bool) (st : KWState)
    (h : st.hnewAttr = none) :
    calcGrads p u t st = .error .attributeError := by
  simp [calcGrads, h]

/-- When `dt_max` is a finite value, the combined internal timestep is a
finite value bounded by it. -/
lemma combineDt_le (m : ℚ) (c : Option ℚ) :
    ∃ w, combineDt (some m) c = some w ∧ w ≤ m := by
  cases c with
  | none => exact ⟨m, rfl, le_refl m⟩
  | some cv => exact ⟨min m cv, rfl, min_le_left m cv⟩

/-- When `dt_max` is a finite positive value and the Courant prefactor is
positive, the combined internal timestep is positive (the stability
denominator is a nonnegative combination of maxima of absolute values). -/
lemma combineDt_pos (p : Params) (equal : Bool) (m pre : ℚ)
    (vx vy : List ℚ) (hm : 0 < m) (hpre : 0 < pre)
    (hdx : 0 ≤ p.dx) (hdy : 0 ≤ p.dy) :
    ∃ w,
      combineDt (some m) (npDiv pre (courantDenom p equal (maxAbs vx)
        (maxAbs vy))) = some w ∧ 0 < w ∧ w ≤ m := by
  have hden : 0 ≤ courantDenom p equal (maxAbs vx) (maxAbs vy) := by
    unfold courantDenom
    rcases equal with _ | _
    · simp only [Bool.false_eq_true, if_false]
      exact add_nonneg (mul_nonneg hdy (maxAbs_nonneg vx))
        (mul_nonneg hdx (maxAbs_nonneg vy))
    · simp only [if_true]
      exact add_nonneg (maxAbs_nonneg vx) (maxAbs_nonneg vy)
  rcases eq_or_lt_of_le hden with hz | hposden
  · refine ⟨m, ?_, hm, le_refl m⟩
    simp [npDiv, ← hz, combineDt]
  · have hne : courantDenom p equal (maxAbs vx) (maxAbs vy) ≠ 0 :=
      ne_of_gt hposden
    refine ⟨min m (pre / courantDenom p equal (maxAbs vx) (maxAbs vy)),
      by simp [npDiv, hne, combineDt], ?_, min_le_left _ _⟩
    exact lt_min hm (div_pos hpre hposden)

/-- Inversion of a successful sub-step: the working copy attribute had to
be present, the elapsed time advances by the clipped internal timestep,
and the cached arrays relate to the `calcCore` output. -/
lemma subStep_ok_inv {p : Params} {dt : ℚ} {rain : Rain} {t : Bool}
    {st : KWState} {e : ℚ} {st' : KWState} {e' d : ℚ}
    (h : subStep p dt rain false t st e = .ok (st', e', d)) :
    ∃ l, st.hnewAttr = some l ∧
      d = max 0 (minOptQ (calcCore p t st l).1 (dt - e)) ∧
      e' = e + d ∧
      st'.active = st.active ∧
      st'.h = st.h ∧
      st'.qx = (calcCore p t st l).2.qx ∧
      st'.qy = (calcCore p t st l).2.qy ∧
      st'.hnewAttr.isSome = true ∧
      st'.waterBalance.length
        = st.waterBalance.length + (if t then 1 else 0) ∧
      st'.activesBCs = st.activesBCs ∧
      st'.activesBCsWaterDepth = st.activesBCsWaterDepth ∧
      st'.equaldims = st.equaldims ∧
      st'.courantPrefactor = st.courantPrefactor := by
  cases hl : st.hnewAttr with
  | none =>
    rw [subStep, calcGrads_noAttr p false t st hl] at h
    exact absurd h (by simp)
  | some l =>
    rw [subStep, calcGrads_some p t st l hl] at h
    simp only [calcCore_hnewAttr] at h
    simp only [Except.ok.injEq, Prod.mk.injEq] at h
    obtain ⟨hst, he, hd⟩ := h
    subst hd
    refine ⟨l, rfl, rfl, he.symm, ?_⟩
    rw [← hst]
    refine ⟨rfl, rfl, rfl, rfl, rfl, ?_, rfl, rfl, rfl, rfl⟩
    exact calcCore_waterBalance_len p t st l

/-- A sub-step always succeeds when the working copy is present and no
topography refresh is requested, advancing elapsed time by the clipped
internal timestep. -/
lemma subStep_progress (p : Params) (dt : ℚ) (rain : Rain) (t : Bool)
    (st : KWState) (e : ℚ) (l : List ℚ) (hl : st.hnewAttr = some l) :
    ∃ st', subStep p dt rain false t st e
        = .ok (st', e + max 0 (minOptQ (calcCore p t st l).1 (dt - e)),
            max 0 (minOptQ (calcCore p t st l).1 (dt - e)))
      ∧ st'.hnewAttr.isSome = true := by
  rw [subStep, calcGrads_some p t st l hl]
  simp only [calcCore_hnewAttr]
  exact ⟨_, rfl, rfl⟩

/-- Shape of any successful sub-step: elapsed time advances by the used
timestep, which is nonnegative and at most the clipped remaining time. -/
lemma subStep_ok_shape {p : Params} {dt : ℚ} {rain : Rain} {t : Bool}
    {st : KWState} {e : ℚ} {st' : KWState} {e' d : ℚ}
    (h : subStep p dt rain false t st e = .ok (st', e', d)) :
    e' = e + d ∧ 0 ≤ d ∧ d ≤ max 0 (dt - e) := by
  obtain ⟨l, _, hd, he', _⟩ := subStep_ok_inv h
  refine ⟨he', hd ▸ le_max_left 0 _, ?_⟩
  rw [hd]
  exact max_le_max (le_refl 0) (minOptQ_le_right _ _)

/-- With a nonpositive finite `dt_max` (which the constructor accepts as
long as it is not within `1e-8` of zero), every clipped internal timestep
is zero, so the sub-step loop never makes progress: whatever the fuel, the
loop is still running. -/
lemma runLoop_stuck (p : Params) (dt : ℚ) (rain : Rain) (t : Bool)
    (m : ℚ) (hm : p.dtMax = some m) (hm0 : m ≤ 0) :
    ∀ (fuel : ℕ) (st : KWState) (e : ℚ), st.hnewAttr.isSome = true →
      e < dt → runLoop p dt rain false t fuel st e = .ok none := by
  intro fuel
  induction fuel with
  | zero =>
    intro st e _ he
    simp [runLoop, he]
  | succ n ih =>
    intro st e hs he
    obtain ⟨l, hl⟩ := Option.isSome_iff_exists.mp hs
    have hidt : max 0 (minOptQ (calcCore p t st l).1 (dt - e)) = 0 := by
      rw [calcCore_fst, hm]
      obtain ⟨w, hw_eq, hw_le⟩ := combineDt_le m
        (npDiv st.courantPrefactor
          (courantDenom p st.equaldims
            (maxAbs (calcCore p t st l).2.velx)
            (maxAbs (calcCore p t st l).2.vely)))
      rw [hw_eq]
      have : minOptQ (some w) (dt - e) ≤ 0 :=
        le_trans (min_le_left w (dt - e)) (le_trans hw_le hm0)
      exact max_eq_left this
    obtain ⟨st', hstep, hs'⟩ := subStep_progress p dt rain t st e l hl
    rw [hidt, add_zero] at hstep
    simp only [runLoop, if_pos he, hstep]
    rw [ih st' e hs' he]

/-- When the sub-step loop exits, the final elapsed time equals the macro
step exactly, and the used sub-step lengths sum exactly to the part of the
macro step that was still remaining on entry. -/
lemma runLoop_exit (p : Params) (dt : ℚ) (rain : Rain) (t : Bool) :
    ∀ (fuel : ℕ) (st : KWState) (e : ℚ) (stf : KWState) (ef : ℚ)
      (ds : List ℚ),
      runLoop p dt rain false t fuel st e = .ok (some (stf, ef, ds)) →
      e ≤ dt → ef = dt ∧ e + ds.sum = dt := by
  intro fuel
  induction fuel with
  | zero =>
    intro st e stf ef ds h hle
    by_cases he : e < dt
    · simp [runLoop, he] at h
    · simp only [runLoop, if_neg he, Except.ok.injEq, Option.some.injEq,
        Prod.mk.injEq] at h
      obtain ⟨_, h2, h3⟩ := h
      have : e = dt := le_antisymm hle (not_lt.mp he)
      subst h2 h3
      simp [this]
  | succ n ih =>
    intro st e stf ef ds h hle
    by_cases he : e < dt
    · simp only [runLoop, if_pos he] at h
      cases hstep : subStep p dt rain false t st e with
      | error err => simp [hstep] at h
      | ok r =>
        obtain ⟨st1, e1, d⟩ := r
        obtain ⟨he1, hd0, hdle⟩ := subStep_ok_shape hstep
        have hle1 : e1 ≤ dt := by
          rw [he1]
          have : d ≤ dt - e := by
            have hmax : max 0 (dt - e) = dt - e :=
              max_eq_right (le_of_lt (sub_pos.mpr he))
            exact hmax ▸ hdle
          linarith
        simp only [hstep] at h
        cases hrec : runLoop p dt rain false t n st1 e1 with
        | error err => simp [hrec] at h
        | ok o =>
          cases o with
          | none => simp [hrec] at h
          | some trip =>
            obtain ⟨stf', ef', ds'⟩ := trip
            simp only [hrec, Except.ok.injEq, Option.some.injEq,
              Prod.mk.injEq] at h
            obtain ⟨h1, h2, h3⟩ := h
            obtain ⟨hef', hsum'⟩ := ih st1 e1 stf' ef' ds' hrec hle1
            subst h1 h2 h3
            refine ⟨hef', ?_⟩
            rw [List.sum_cons]
            linarith
    · simp only [runLoop, if_neg he, Except.ok.injEq, Option.some.injEq,
        Prod.mk.injEq] at h
      obtain ⟨_, h2, h3⟩ := h
      have : e = dt := le_antisymm hle (not_lt.mp he)
      subst h2 h3
      simp [this]

/-- Inversion of a successful `runOneStep`: the sub-step loop exited with
the same ghost trace, and the returned state only rewrites the depth field
and the magnitude outputs on top of the loop state. -/
lemma runOneStep_ok_inv {p : Params} {fuel : ℕ} {dt : ℚ} {rain : Rain}
    {t : Bool} {st stf : KWState} {ds : List ℚ}
    (h : runOneStep p fuel dt rain false t st = .ok (some (stf, ds))) :
    ∃ st2 ef,
      runLoop p dt rain false t fuel
          { st with hnewAttr := some (gather st.h st.active) } 0
        = .ok (some (st2, ef, ds)) ∧
      stf.waterBalance = st2.waterBalance ∧
      stf.qx = st2.qx ∧ stf.qy = st2.qy ∧
      stf.active = st2.active ∧
      (∃ hnew, st2.hnewAttr = some hnew ∧
        stf.h = scatter st2.h st2.active hnew) := by
  rw [runOneStep] at h
  simp only [Bool.false_eq_true, if_false] at h
  cases hrec : runLoop p dt rain false t fuel
      { st with hnewAttr := some (gather st.h st.active) } 0 with
  | error err => simp [hrec] at h
  | ok o =>
    cases o with
    | none => simp [hrec] at h
    | some trip =>
      obtain ⟨st2, ef, ds'⟩ := trip
      simp only [hrec] at h
      cases hh : st2.hnewAttr with
      | none => simp [hh] at h
      | some hnew =>
        simp only [hh, Except.ok.injEq, Option.some.injEq,
          Prod.mk.injEq] at h
        obtain ⟨h1, h2⟩ := h
        subst h2
        exact ⟨st2, ef, rfl, by rw [← h1], by rw [← h1], by rw [← h1],
          by rw [← h1], hnew, hh, by rw [← h1]⟩

/-- With tracking enabled, the loop appends exactly one mass-imbalance
sample per sub-step taken; with tracking disabled, none. -/
lemma runLoop_wb_count (p : Params) (dt : ℚ) (rain : Rain) (t : Bool) :
    ∀ (fuel : ℕ) (st : KWState) (e : ℚ) (stf : KWState) (ef : ℚ)
      (ds : List ℚ),
      runLoop p dt rain false t fuel st e = .ok (some (stf, ef, ds)) →
      stf.waterBalance.length
        = st.waterBalance.length + (if t then ds.length else 0) := by
  intro fuel
  induction fuel with
  | zero =>
    intro st e stf ef ds h
    by_cases he : e < dt
    · simp [runLoop, he] at h
    · simp only [runLoop, if_neg he, Except.ok.injEq, Option.some.injEq,
        Prod.mk.injEq] at h
      obtain ⟨h1, _, h3⟩ := h
      subst h1 h3
      cases t <;> simp
  | succ n ih =>
    intro st e stf ef ds h
    by_cases he : e < dt
    · simp only [runLoop, if_pos he] at h
      cases hstep : subStep p dt rain false t st e with
      | error err => simp [hstep] at h
      | ok r =>
        obtain ⟨st1, e1, d⟩ := r
        obtain ⟨l, _, _, _, _, _, _, _, _, hwb, _⟩ := subStep_ok_inv hstep
        simp only [hstep] at h
        cases hrec : runLoop p dt rain false t n st1 e1 with
        | error err => simp [hrec] at h
        | ok o =>
          cases o with
          | none => simp [hrec] at h
          | some trip =>
            obtain ⟨stf', ef', ds'⟩ := trip
            simp only [hrec, Except.ok.injEq, Option.some.injEq,
              Prod.mk.injEq] at h
            obtain ⟨h1, _, h3⟩ := h
            subst h1 h3
            have := ih st1 e1 stf' ef' ds' hrec
            cases t
            all_goals simp_all
            all_goals omega
    · simp only [runLoop, if_neg he, Except.ok.injEq, Option.some.injEq,
        Prod.mk.injEq] at h
      obtain ⟨h1, _, h3⟩ := h
      subst h1 h3
      cases t <;> simp

/-! ### The trailing discharge slot (claim C10) -/

/-- Invariant of the discharge arrays: one extra trailing slot beyond the
`N` node slots, holding zero, and every cached active index is a real node
index (so every write lands strictly below the trailing slot). -/
def QSlotInv (N : ℕ) (st : KWState) : Prop :=
  st.qx.length = N + 1 ∧ st.qy.length = N + 1 ∧
  st.qx.getD N 0 = 0 ∧ st.qy.getD N 0 = 0 ∧
  ∀ a ∈ st.active, a < N

lemma foldl_set_length (pairs : List (ℕ × ℚ)) :
    ∀ l : List ℚ,
      (pairs.foldl (fun acc iv => acc.set iv.1 iv.2) l).length
        = l.length := by
  induction pairs with
  | nil => intro l; rfl
  | cons pr rest ih =>
    intro l
    rw [List.foldl_cons, ih, List.length_set]

lemma scatter_length (l : List ℚ) (idx : List ℕ) (vals : List ℚ) :
    (scatter l idx vals).length = l.length :=
  foldl_set_length (idx.zip vals) l

lemma foldl_set_getD_ne (n : ℕ) (pairs : List (ℕ × ℚ))
    (hp : ∀ pr ∈ pairs, pr.1 ≠ n) :
    ∀ l : List ℚ,
      (pairs.foldl (fun acc iv => acc.set iv.1 iv.2) l).getD n 0
        = l.getD n 0 := by
  induction pairs with
  | nil => intro l; rfl
  | cons pr rest ih =>
    intro l
    rw [List.foldl_cons]
    rw [ih fun q hq => hp q (List.mem_cons_of_mem pr hq)]
    rw [List.getD_eq_getElem?_getD, List.getD_eq_getElem?_getD,
      List.getElem?_set_ne (hp pr (List.mem_cons_self pr rest))]

lemma scatter_getD_ne (l : List ℚ) (idx : List ℕ) (vals : List ℚ) (n : ℕ)
    (h : ∀ i ∈ idx, i ≠ n) :
    (scatter l idx vals).getD n 0 = l.getD n 0 :=
  foldl_set_getD_ne n (idx.zip vals)
    (fun pr hpr => h pr.1 (List.of_mem_zip hpr).1) l

lemma calcCore_qslot {N : ℕ} {st : KWState} (p : Params) (t : Bool)
    (l : List ℚ) (hinv : QSlotInv N st) :
    QSlotInv N (calcCore p t st l).2 := by
  obtain ⟨hqx, hqy, hqx0, hqy0, hact⟩ := hinv
  have hne : ∀ a ∈ st.active, a ≠ N := fun a ha => ne_of_lt (hact a ha)
  refine ⟨?_, ?_, ?_, ?_, ?_⟩
  · rw [calcCore_qxEq, scatter_length, hqx]
  · rw [calcCore_qyEq, scatter_length, hqy]
  · rw [calcCore_qxEq, scatter_getD_ne _ _ _ _ hne, hqx0]
  · rw [calcCore_qyEq, scatter_getD_ne _ _ _ _ hne, hqy0]
  · rw [calcCore_active]; exact hact

lemma subStep_qslot {N : ℕ} {p : Params} {dt : ℚ} {rain : Rain} {t : Bool}
    {st : KWState} {e : ℚ} {st' : KWState} {e' d : ℚ}
    (hinv : QSlotInv N st)
    (h : subStep p dt rain false t st e = .ok (st', e', d)) :
    QSlotInv N st' := by
  obtain ⟨l, _, _, _, hact', _, hqx', hqy', _⟩ := subStep_ok_inv h
  obtain ⟨cqx, cqy, cqx0, cqy0, ca⟩ := calcCore_qslot p t l hinv
  exact ⟨hqx' ▸ cqx, hqy' ▸ cqy, hqx' ▸ cqx0, hqy' ▸ cqy0,
    fun a ha => hinv.2.2.2.2 a (hact' ▸ ha)⟩

lemma runLoop_qslot {N : ℕ} (p : Params) (dt : ℚ) (rain : Rain)
    (t : Bool) :
    ∀ (fuel : ℕ) (st : KWState) (e : ℚ) (stf : KWState) (ef : ℚ)
      (ds : List ℚ), QSlotInv N st →
      runLoop p dt rain false t fuel st e = .ok (some (stf, ef, ds)) →
      QSlotInv N stf := by
  intro fuel
  induction fuel with
  | zero =>
    intro st e stf ef ds hinv h
    by_cases he : e < dt
    · simp [runLoop, he] at h
    · simp only [runLoop, if_neg he, Except.ok.injEq, Option.some.injEq,
        Prod.mk.injEq] at h
      exact h.1 ▸ hinv
  | succ n ih =>
    intro st e stf ef ds hinv h
    by_cases he : e < dt
    · simp only [runLoop, if_pos he] at h
      cases hstep : subStep p dt rain false t st e with
      | error err => simp [hstep] at h
      | ok r =>
        obtain ⟨st1, e1, d⟩ := r
        simp only [hstep] at h
        cases hrec : runLoop p dt rain false t n st1 e1 with
        | error err => simp [hrec] at h
        | ok o =>
          cases o with
          | none => simp [hrec] at h
          | some trip =>
            obtain ⟨stf', ef', ds'⟩ := trip
            simp only [hrec, Except.ok.injEq, Option.some.injEq,
              Prod.mk.injEq] at h
            exact h.1 ▸ ih st1 e1 stf' ef' ds' (subStep_qslot hinv hstep)
              hrec
    · simp only [runLoop, if_neg he, Except.ok.injEq, Option.some.injEq,
        Prod.mk.injEq] at h
      exact h.1 ▸ hinv

/-- A missing-neighbor lookup (index -1) into a discharge array satisfying
the invariant reads the trailing slot, hence exactly zero. -/
lemma npGet_neg_one_eq_zero {N : ℕ} {q : List ℚ}
    (hlen : q.length = N + 1) (hz : q.getD N 0 = 0) :
    npGet q (-1) = 0 := by
  rw [npGet, if_pos (by norm_num)]
  simpa [hlen] using hz

lemma idxWhere_lt {α : Type} (l : List α) (pred : α → Bool) :
    ∀ i ∈ idxWhere l pred, i < l.length := by
  intro i hi
  simp only [idxWhere, List.mem_map, List.mem_filter] at hi
  obtain ⟨⟨j, a⟩, ⟨hj, _⟩, rfl⟩ := hi
  exact (List.getElem?_eq_some.1 (List.mem_enum_iff_getElem?.1 hj)).1

lemma getD_replicate_zero (n i : ℕ) :
    (List.replicate n (0 : ℚ)).getD i 0 = 0 := by
  rw [List.getD_eq_getElem?_getD]
  rcases lt_or_ge i n with h | h
  · simp [List.getElem?_replicate, h]
  · have hlen : (List.replicate n (0 : ℚ)).length ≤ i := by simpa using h
    simp [List.getElem?_eq_none hlen]

/-! ### The boolean-mask pin (claim C2) -/

/-- Boolean-mask assignment writes, at the i-th position when the mask is
true there, exactly the constant whose rank among the constants equals the
number of earlier true mask positions. -/
lemma maskAssign_getD :
    ∀ (l : List ℚ) (m : List Bool) (v : List ℚ) (i : ℕ),
      i < l.length → m.getD i false = true →
      (m.take i).count true < v.length →
      (maskAssign l m v).getD i 0 = v.getD ((m.take i).count true) 0 := by
  intro l
  induction l with
  | nil =>
    intro m v i hi
    simp at hi
  | cons x xs ih =>
    intro m v i hi hm hc
    cases m with
    | nil => simp at hm
    | cons b ms =>
      cases b with
      | true =>
        cases v with
        | nil => simp at hc
        | cons c vs =>
          cases i with
          | zero => simp [maskAssign]
          | succ j =>
            have hi' : j < xs.length := by simpa using hi
            have hm' : ms.getD j false = true := by simpa using hm
            have hc' : (ms.take j).count true < vs.length := by
              simp [List.count_cons] at hc
              omega
            simp only [maskAssign, List.getD_cons_succ,
              List.take_succ_cons, List.count_cons]
            rw [ih ms vs j hi' hm' hc']
            simp
      | false =>
        cases i with
        | zero => simp at hm
        | succ j =>
          have hi' : j < xs.length := by simpa using hi
          have hm' : ms.getD j false = true := by simpa using hm
          have hc' : (ms.take j).count true < v.length := by
            simp only [List.take_succ_cons, List.count_cons] at hc
            omega
          simp only [maskAssign, List.getD_cons_succ,
            List.take_succ_cons, List.count_cons]
          rw [ih ms v j hi' hm' hc']
          simp

/-- Compression keeps, for each true mask position, the source value at
the rank equal to the number of earlier true positions (and that rank is a
valid index of the compressed array). -/
lemma compress_getD :
    ∀ (l : List ℚ) (m : List Bool) (i : ℕ),
      i < l.length → m.getD i false = true →
      (m.take i).count true < (compress l m).length ∧
      (compress l m).getD ((m.take i).count true) 0 = l.getD i 0 := by
  intro l
  induction l with
  | nil =>
    intro m i hi
    simp at hi
  | cons x xs ih =>
    intro m i hi hm
    cases m with
    | nil => simp at hm
    | cons b ms =>
      have hcomp : compress (x :: xs) (b :: ms)
          = if b then x :: compress xs ms else compress xs ms := by
        cases b <;> simp [compress]
      cases b with
      | true =>
        cases i with
        | zero => simp [hcomp]
        | succ j =>
          have hi' : j < xs.length := by simpa using hi
          have hm' : ms.getD j false = true := by simpa using hm
          obtain ⟨ih1, ih2⟩ := ih ms j hi' hm'
          refine ⟨?_, ?_⟩
          · simp [hcomp, List.count_cons]
            omega
          · simp only [hcomp, if_true, List.take_succ_cons,
              List.count_cons, List.getD_cons_succ]
            simpa using ih2
      | false =>
        cases i with
        | zero => simp at hm
        | succ j =>
          have hi' : j < xs.length := by simpa using hi
          have hm' : ms.getD j false = true := by simpa using hm
          obtain ⟨ih1, ih2⟩ := ih ms j hi' hm'
          refine ⟨?_, ?_⟩
          · simpa [hcomp] using ih1
          · simp only [hcomp, if_false, List.take_succ_cons,
              List.count_cons, List.getD_cons_succ]
            simpa using ih2

/-- Inversion of a successful construction: the cached state the
constructor produces, field by field. -/
lemma kwInit_ok_inv {p : Params} {st : KWState} (h : kwInit p = .ok st) :
    st.h = p.h0 ∧
    st.active = idxWhere p.status (fun s => decide (s ≠ BC_NODE_IS_CORE)) ∧
    st.qx = List.replicate (p.N + 1) 0 ∧
    st.qy = List.replicate (p.N + 1) 0 ∧
    st.activesBCs
      = (st.active.map fun i => p.status.getD i 0).map
          (fun s => decide (s = BC_NODE_IS_FIXED_VALUE)) ∧
    st.activesBCsWaterDepth = compress (gather p.h0 st.active) st.activesBCs ∧
    st.waterBalance = [] ∧
    st.hnewAttr = none ∧
    st.internalDtAttr = none := by
  rw [kwInit] at h
  cases hd : p.dtMax with
  | none => rw [hd] at h; exact absurd h (by simp)
  | some d =>
    rw [hd] at h
    by_cases hc : npIsclose d 0
    · simp only [hc, if_true] at h
      exact absurd h (by simp)
    · simp only [hc, Bool.false_eq_true, if_false, Except.ok.injEq] at h
      subst h
      exact ⟨rfl, rfl, rfl, rfl, rfl, rfl, rfl, rfl, rfl⟩

/-- A successful construction establishes the trailing-slot invariant,
provided the grid supplies one status code per node. -/
lemma kwInit_qslot {p : Params} {st : KWState}
    (hs : p.status.length = p.N) (h : kwInit p = .ok st) :
    QSlotInv p.N st := by
  obtain ⟨_, hact, hqx, hqy, _⟩ := kwInit_ok_inv h
  refine ⟨by rw [hqx, List.length_replicate],
    by rw [hqy, List.length_replicate],
    by rw [hqx]; exact getD_replicate_zero _ _,
    by rw [hqy]; exact getD_replicate_zero _ _, ?_⟩
  intro a ha
  rw [hact] at ha
  have := idxWhere_lt p.status _ a ha
  omega

/-- One advance call keeps the trailing-slot invariant. -/
lemma runOneStep_qslot {N : ℕ} {p : Params} {fuel : ℕ} {dt : ℚ}
    {rain : Rain} {t : Bool} {st stf : KWState} {ds : List ℚ}
    (hinv : QSlotInv N st)
    (h : runOneStep p fuel dt rain false t st = .ok (some (stf, ds))) :
    QSlotInv N stf := by
  obtain ⟨st2, ef, hrec, _, hqx, hqy, hact, _⟩ := runOneStep_ok_inv h
  have hinv0 : QSlotInv N { st with hnewAttr := some (gather st.h st.active) } :=
    hinv
  have hinv2 := runLoop_qslot p dt rain t fuel _ 0 st2 ef ds hinv0 hrec
  exact ⟨hqx ▸ hinv2.1, hqy ▸ hinv2.2.1, hqx ▸ hinv2.2.2.1,
    hqy ▸ hinv2.2.2.2.1, fun a ha => hinv2.2.2.2.2 a (hact ▸ ha)⟩

/-! ### Further concrete instances for the claims -/

/-- The two-node instance with `dt_max = -1`: nonzero, not within `1e-8`
of zero, so the constructor accepts it; every clipped internal timestep is
then zero. -/
def pNeg : Params := { pCex with dtMax := some (-1) }

lemma kwInit_pNeg : kwInit pNeg = .ok stCex := by
  norm_num [kwInit, pNeg, pCex, stCex, idxWhere, gather, compress,
    npIsclose, normNeighbor, BAD_INDEX, BC_NODE_IS_CORE,
    BC_NODE_IS_FIXED_VALUE, BC_NODE_IS_CLOSED, List.enum, List.enumFrom,
    List.replicate, idK, abs_of_nonneg, abs_of_nonpos]

/-- The two-node instance presented as a non-raster grid. -/
def pNonRaster : Params := { pCex with gridIsRaster := false }

/-- The two-node instance with `dt_max = 0`. -/
def pZero : Params := { pCex with dtMax := some 0 }

/-- The two-node instance with the nonzero `dt_max = 1e-9`, within the
`np.isclose` tolerance of zero. -/
def pTiny : Params := { pCex with dtMax := some (1 / 1000000000) }

/-- A three-node instance whose statuses are closed, core, fixed-value:
exercises the active-set rule of the constructor. -/
def pC1 : Params :=
  { pCex with
    N := 3
    status := [BC_NODE_IS_CLOSED, BC_NODE_IS_CORE, BC_NODE_IS_FIXED_VALUE]
    neighborsRaw := [(BAD_INDEX, BAD_INDEX, BAD_INDEX, BAD_INDEX),
                     (BAD_INDEX, BAD_INDEX, BAD_INDEX, BAD_INDEX),
                     (BAD_INDEX, BAD_INDEX, BAD_INDEX, BAD_INDEX)]
    hozGrads := [0, 0, 0]
    vertGrads := [0, 0, 0]
    h0 := [1, 1, 1] }

/-- The cached active-node list of a construction result. -/
def activeOf : Except PyErr KWState → Option (List ℕ)
  | .ok st => some st.active
  | .error _ => none

lemma activeOf_pC1 : activeOf (kwInit pC1) = some [0, 2] := by
  norm_num [kwInit, pC1, pCex, activeOf, idxWhere, npIsclose,
    BC_NODE_IS_CORE, BC_NODE_IS_CLOSED, BC_NODE_IS_FIXED_VALUE,
    List.enum, List.enumFrom, abs_of_nonneg, abs_of_nonpos]

/-- The flat one-node state after one tracked sub-step: one sample (of
value zero, no clamping happened) has been appended to the trace. -/
def stFlatAT : KWState :=
  { stFlatH with
    waterBalance := [0]
    internalDtAttr := some (some (3 / 10)) }

lemma calcGrads_track_stFlatH :
    calcGrads pFlat false true stFlatH = .ok (some (3 / 10), stFlatAT) := by
  norm_num [calcGrads, calcCore, courantDenom, combineDt, pFlat, stFlat,
    stFlatH, stFlatAT, gather, scatter,
    maxAbs, npDiv, idK, abs_of_nonneg, abs_of_nonpos, max_def, min_def,
    List.set, List.foldl]

lemma subStep_track_stFlatH :
    subStep pFlat (3 / 10) (Rain.scalar 0) false true stFlatH 0
      = .ok (stFlatAT, 3 / 10, 3 / 10) := by
  rw [subStep, calcGrads_track_stFlatH]
  norm_num [pFlat, stFlat, stFlatH, stFlatAT, rainStage, pinStage,
    fluxStage, fluxGather, fixedGradStage, maskAssign, gather, scatter,
    npGet, minOptQ, max_def, min_def, abs_of_nonneg, abs_of_nonpos,
    List.set, List.foldl]

lemma runLoop_track_stFlatH :
    runLoop pFlat (3 / 10) (Rain.scalar 0) false true 2 stFlatH 0
      = .ok (some (stFlatAT, 3 / 10, [3 / 10])) := by
  norm_num [runLoop, subStep_track_stFlatH]

lemma runOneStep_track_pFlat :
    runOneStep pFlat 2 (3 / 10) (Rain.scalar 0) false true stFlat
      = .ok (some (stFlatAT, [3 / 10])) := by
  have h0 : { stFlat with hnewAttr := some (gather stFlat.h stFlat.active) }
      = stFlatH := by
    norm_num [stFlat, stFlatH, gather]
  rw [runOneStep, h0]
  simp only [Bool.false_eq_true, if_false, runLoop_track_stFlatH]
  norm_num [stFlatAT, stFlatH, stFlat, pFlat,
    gather, scatter, hypotK, abs_of_nonneg, abs_of_nonpos, List.set]

/-! ### Claim theorems -/

/-- Claim C1 (code_bug evidence): at construction the code computes the
active set as the nodes whose status differs from the CORE code (source
line 163), not from the CLOSED code. On the three-node instance with
statuses closed, core, fixed-value, the cached active set is `[0, 2]`:
the core node 1 is excluded (the claim requires every core node to be a
member) and the closed node 0 is included (the claim requires closed nodes
to be excluded). This also contradicts the doctest of the component, whose
expected output shows core nodes evolving. -/
theorem C1_active_set_excludes_core :
    activeOf (kwInit pC1) = some [0, 2] ∧
    pC1.status.getD 1 0 = BC_NODE_IS_CORE ∧
    (1 : ℕ) ∉ ([0, 2] : List ℕ) ∧
    pC1.status.getD 0 0 = BC_NODE_IS_CLOSED ∧
    (0 : ℕ) ∈ ([0, 2] : List ℕ) :=
  ⟨activeOf_pC1, rfl, by decide, rfl, by decide⟩

/-- Claim C2 counterexample: on the two-node instance, node 0 is the
active fixed-value node with configured constant depth 1, yet after one
advance call (a single sub-step) the depth written back at node 0 is
`6/5`: the pin happens before the flux update inside the sub-step, so the
inflow from node 1 is added on top of the pinned constant. -/
theorem C2_counterexample_pin_overwritten :
    stCex.activesBCs = [true, false] ∧
    stCex.activesBCsWaterDepth = [1] ∧
    finalDepths
        (runOneStep pCex 2 (1 / 5) (Rain.scalar 0) false false stCex)
      = some [6 / 5, 4 / 5] ∧
    (6 / 5 : ℚ) ≠ 1 := by
  refine ⟨rfl, rfl, ?_, by norm_num⟩
  rw [runOneStep_pCex]
  rfl

/-- Claim C2 as amended: within each sub-step, at the pin point (after the
rainfall addition, before the flux update), every fixed-value active
position holds exactly the constant captured for it at construction (the
value of the depth field at that position, compressed by the fixed-value
mask); the flux update afterwards may change it again. -/
theorem C2_pin_writes_captured_constant :
    ∀ (hnew hcap : List ℚ) (mask : List Bool) (i : ℕ),
      i < hnew.length → i < hcap.length → mask.getD i false = true →
      (pinStage mask (compress hcap mask) hnew).getD i 0
        = hcap.getD i 0 := by
  intro hnew hcap mask i hlen hcaplen hm
  obtain ⟨hcount, hval⟩ := compress_getD hcap mask i hcaplen hm
  rw [pinStage, maskAssign_getD hnew mask (compress hcap mask) i hlen hm
    hcount, hval]

/-- Witness for C2 as amended, at a concrete pin. -/
theorem C2_pin_writes_captured_constant_witness :
    (pinStage [true, false] (compress [1, 1] [true, false]) [5, 7]).getD 0 0
      = ([1, 1] : List ℚ).getD 0 0 :=
  C2_pin_writes_captured_constant [5, 7] [1, 1] [true, false] 0
    (by decide) (by decide) (by decide)

/-- Claim C3 counterexample: with the minimum-depth floor configured as 1,
the two-node run starts with both active depths exactly at the floor, yet
the depth written back at active node 1 is `4/5`, strictly below the
floor: the clamp happens only at the start of a sub-step, and the flux
update afterwards is unclamped. -/
theorem C3_counterexample_floor_violated :
    pFloor.minDepth = 1 ∧
    stCex.active = [0, 1] ∧
    finalDepths
        (runOneStep pFloor 2 (1 / 5) (Rain.scalar 0) false false stCex)
      = some [6 / 5, 4 / 5] ∧
    ¬ pFloor.minDepth ≤ (4 / 5 : ℚ) := by
  refine ⟨rfl, rfl, ?_, by norm_num [pFloor, pCex]⟩
  rw [runOneStep_pFloor]
  rfl

/-- Claim C3 as amended: the floor holds exactly at the clamp point: the
working depths the gradient/flux stage computes with (its output working
copy) are all at least the configured floor; the bound is not maintained
by the rest of the sub-step or in the written-back field. -/
theorem C3_floor_holds_after_clamp :
    ∀ (p : Params) (t : Bool) (st : KWState) (l l' : List ℚ),
      st.hnewAttr = some l →
      calcGrads p false t st = .ok (calcCore p t st l) ∧
      ((calcCore p t st l).2.hnewAttr = some l' →
        ∀ x ∈ l', p.minDepth ≤ x) := by
  intro p t st l l' hl
  refine ⟨calcGrads_some p t st l hl, ?_⟩
  rw [calcCore_hnewAttr]
  intro hsome x hx
  obtain ⟨y, _, hy⟩ := List.mem_map.1 (Option.some_injective _ hsome ▸ hx)
  rw [← hy]
  exact le_max_left p.minDepth y

/-- Witness for C3 as amended, on the concrete two-node state. -/
theorem C3_floor_holds_after_clamp_witness :
    pCex.minDepth ≤ (1 : ℚ) :=
  (C3_floor_holds_after_clamp pCex false stCexH [1, 1] [1, 1] rfl).2
    (by rw [calcCore_hnewAttr]; norm_num [max_def, pCex])
    1 (List.mem_cons_self 1 [1])

/-- Claim C4 counterexample: `dt_max = -1` is nonzero (and outside the
`np.isclose` tolerance of zero), so construction succeeds; but then every
computed internal timestep is at most `-1` and the `clip(0.0)` makes every
used sub-step length zero, so with a positive macro step `dt = 1` the
sub-step loop never terminates: no amount of fuel makes `run_one_step`
return. -/
theorem C4_counterexample_negative_dtmax_loops :
    kwInit pNeg = .ok stCex ∧
    pNeg.dtMax = some (-1) ∧ (-1 : ℚ) ≠ 0 ∧
    ¬ ∃ (fuel : ℕ) (res : KWState × List ℚ),
        runOneStep pNeg fuel 1 (Rain.scalar 0) false false stCex
          = .ok (some res) := by
  refine ⟨kwInit_pNeg, rfl, by norm_num, ?_⟩
  rintro ⟨fuel, res, hres⟩
  rw [runOneStep] at hres
  simp only [Bool.false_eq_true, if_false] at hres
  rw [runLoop_stuck pNeg 1 (Rain.scalar 0) false (-1) rfl (by norm_num)
    fuel { stCex with hnewAttr := some (gather stCex.h stCex.active) } 0
    rfl (by norm_num)] at hres
  simp at hres

/-- Claim C4 as amended: under the strengthened precondition that the
configured maximum sub-step is positive (not merely nonzero) and the
Courant prefactor is positive, every sub-step taken while time remains
uses a positive internal timestep clipped to the remaining time; and
whenever an advance call returns, the used sub-step lengths sum exactly to
the requested macro step. -/
theorem C4_substeps_positive_and_sum_exact :
    (∀ (p : Params) (dt : ℚ) (rain : Rain) (t : Bool) (st : KWState)
        (e : ℚ) (l : List ℚ) (m : ℚ),
      st.hnewAttr = some l → p.dtMax = some m → 0 < m →
      0 < st.courantPrefactor → 0 ≤ p.dx → 0 ≤ p.dy → e < dt →
      ∃ st' d, subStep p dt rain false t st e = .ok (st', e + d, d) ∧
        0 < d ∧ d ≤ dt - e) ∧
    (∀ (p : Params) (fuel : ℕ) (dt : ℚ) (rain : Rain) (t : Bool)
        (st stf : KWState) (ds : List ℚ),
      runOneStep p fuel dt rain false t st = .ok (some (stf, ds)) →
      0 ≤ dt → ds.sum = dt) := by
  constructor
  · intro p dt rain t st e l m hl hm hm0 hpre hdx hdy he
    obtain ⟨w, hw_eq, hw0, hw_le⟩ :=
      combineDt_pos p st.equaldims m st.courantPrefactor
        (calcCore p t st l).2.velx (calcCore p t st l).2.vely hm0 hpre
        hdx hdy
    obtain ⟨st', hstep, _⟩ := subStep_progress p dt rain t st e l hl
    have hfst : (calcCore p t st l).1 = some w := by
      rw [calcCore_fst, hm]
      exact hw_eq
    have hd : max 0 (minOptQ (calcCore p t st l).1 (dt - e))
        = min w (dt - e) := by
      rw [hfst]
      show max 0 (min w (dt - e)) = min w (dt - e)
      exact max_eq_right
        (le_min (le_of_lt hw0) (le_of_lt (sub_pos.mpr he)))
    refine ⟨st', min w (dt - e), by rw [← hd]; exact hstep, ?_, ?_⟩
    · exact lt_min hw0 (sub_pos.mpr he)
    · exact min_le_right w (dt - e)
  · intro p fuel dt rain t st stf ds h hdt
    obtain ⟨st2, ef, hrec, _⟩ := runOneStep_ok_inv h
    obtain ⟨_, hsum⟩ := runLoop_exit p dt rain t fuel _ 0 st2 ef ds hrec hdt
    linarith

/-- Witness for C4 as amended: the flat one-node run takes one positive
sub-step of length `3/10` and its sub-step lengths sum to the macro step
`3/10`. -/
theorem C4_substeps_positive_and_sum_exact_witness :
    (∃ st' d,
      subStep pFlat (3 / 10) (Rain.scalar 0) false false stFlatH 0
        = .ok (st', 0 + d, d) ∧ 0 < d ∧ d ≤ 3 / 10 - 0) ∧
    ([3 / 10] : List ℚ).sum = 3 / 10 :=
  ⟨C4_substeps_positive_and_sum_exact.1 pFlat (3 / 10) (Rain.scalar 0)
      false stFlatH 0 [1] (3 / 10) rfl rfl (by norm_num)
      (by norm_num [stFlatH, stFlat]) (by norm_num [pFlat])
      (by norm_num [pFlat]) (by norm_num),
    C4_substeps_positive_and_sum_exact.2 pFlat 2 (3 / 10) (Rain.scalar 0)
      false stFlat stFlatA [3 / 10] runOneStep_pFlat (by norm_num)⟩

/-- Modelled from the spec: the stable sub-step is the minimum of the
configured maximum sub-step and `courant_prefactor / stability_denominator`
(the Courant-derived value alone when no maximum is configured), where the
stability denominator is `max|velx| + max|vely|` for equal-spacing grids
and `spacing_y * max|velx| + spacing_x * max|vely|` otherwise, the maxima
taken over all nodes; a zero denominator makes the Courant value
non-finite, leaving the configured maximum. -/
def specStableSubstep (dtMax : Option ℚ) (prefactor dy dx : ℚ)
    (equalSpacing : Bool) (velx vely : List ℚ) : Option ℚ :=
  let denom :=
    if equalSpacing then maxAbs velx + maxAbs vely
    else dy * maxAbs velx + dx * maxAbs vely
  match dtMax, npDiv prefactor denom with
  | some m, some c => some (min m c)
  | some m, none => some m
  | none, c => c

/-- The spec formula agrees with the combination the code computes. -/
lemma specStableSubstep_eq (p : Params) (dtM : Option ℚ) (pre : ℚ)
    (eqd : Bool) (vx vy : List ℚ) :
    specStableSubstep dtM pre p.dy p.dx eqd vx vy
      = combineDt dtM
          (npDiv pre (courantDenom p eqd (maxAbs vx) (maxAbs vy))) := by
  have hden : (if eqd then maxAbs vx + maxAbs vy
      else p.dy * maxAbs vx + p.dx * maxAbs vy)
      = courantDenom p eqd (maxAbs vx) (maxAbs vy) := rfl
  cases dtM with
  | none =>
    cases hx : npDiv pre (courantDenom p eqd (maxAbs vx) (maxAbs vy)) with
    | none => simp [specStableSubstep, combineDt, hden, hx]
    | some c => simp [specStableSubstep, combineDt, hden, hx]
  | some m =>
    cases hx : npDiv pre (courantDenom p eqd (maxAbs vx) (maxAbs vy)) with
    | none => simp [specStableSubstep, combineDt, hden, hx]
    | some c => simp [specStableSubstep, combineDt, hden, hx]

/-- Order on internal timesteps where `none` is the non-finite value. -/
def leInfQ : Option ℚ → Option ℚ → Prop
  | _, none => True
  | none, some _ => False
  | some a, some b => a ≤ b

/-- Claim C5: the internal sub-step the gradient/flux stage computes
equals the spec formula evaluated on the just-computed velocities: the
minimum of the configured maximum sub-step and the Courant ratio, with the
claimed stability denominator; consequently it never exceeds the
configured maximum and never exceeds the Courant-derived bound, and when
no maximum sub-step is configured it is the Courant value alone. -/
theorem C5_stable_substep_formula :
    ∀ (p : Params) (t : Bool) (st : KWState) (l : List ℚ),
      st.hnewAttr = some l →
      calcGrads p false t st = .ok (calcCore p t st l) ∧
      (calcCore p t st l).1
        = specStableSubstep p.dtMax st.courantPrefactor p.dy p.dx
            st.equaldims (calcCore p t st l).2.velx
            (calcCore p t st l).2.vely ∧
      (∀ m, p.dtMax = some m →
        ∃ w, (calcCore p t st l).1 = some w ∧ w ≤ m) ∧
      leInfQ (calcCore p t st l).1
        (npDiv st.courantPrefactor
          (courantDenom p st.equaldims
            (maxAbs (calcCore p t st l).2.velx)
            (maxAbs (calcCore p t st l).2.vely))) ∧
      (p.dtMax = none →
        (calcCore p t st l).1
          = npDiv st.courantPrefactor
              (courantDenom p st.equaldims
                (maxAbs (calcCore p t st l).2.velx)
                (maxAbs (calcCore p t st l).2.vely))) := by
  intro p t st l hl
  refine ⟨calcGrads_some p t st l hl, ?_, ?_, ?_, ?_⟩
  · rw [calcCore_fst, specStableSubstep_eq]
  · intro m hm
    rw [calcCore_fst, hm]
    exact combineDt_le m _
  · rw [calcCore_fst]
    cases p.dtMax with
    | none =>
      rw [combineDt]
      cases npDiv st.courantPrefactor
          (courantDenom p st.equaldims
            (maxAbs (calcCore p t st l).2.velx)
            (maxAbs (calcCore p t st l).2.vely)) with
      | none => trivial
      | some c => exact le_refl c
    | some m =>
      cases hdiv : npDiv st.courantPrefactor
          (courantDenom p st.equaldims
            (maxAbs (calcCore p t st l).2.velx)
            (maxAbs (calcCore p t st l).2.vely)) with
      | none => trivial
      | some c => exact min_le_right m c
  · intro hm
    rw [calcCore_fst, hm, combineDt]

/-- Witness for C5 on the concrete two-node state. -/
theorem C5_stable_substep_formula_witness :
    (calcCore pCex false stCexH [1, 1]).1
      = specStableSubstep pCex.dtMax stCexH.courantPrefactor pCex.dy
          pCex.dx stCexH.equaldims (calcCore pCex false stCexH [1, 1]).2.velx
          (calcCore pCex false stCexH [1, 1]).2.vely :=
  (C5_stable_substep_formula pCex false stCexH [1, 1] rfl).2.1

/-- Claim C6 (code_bug evidence): the source line for a non-raster grid
constructs `ValueError(...)` but never raises it, so construction with a
non-raster grid succeeds, contrary to the claim and to the evident intent
of the line; the zero `dt_max` check does raise. (Furthermore the check is
`np.isclose(dt_max, 0.0)`, so the nonzero `dt_max = 1e-9` is also
rejected, contradicting the claim that construction succeeds for every
nonzero maximum sub-step.) -/
theorem C6_non_raster_grid_not_rejected :
    pNonRaster.gridIsRaster = false ∧
    exceptOk (kwInit pNonRaster) = true ∧
    kwInit pZero = .error PyErr.valueError ∧
    pTiny.dtMax = some (1 / 1000000000) ∧ (1 / 1000000000 : ℚ) ≠ 0 ∧
    kwInit pTiny = .error PyErr.valueError := by
  refine ⟨rfl, ?_, ?_, rfl, by norm_num, ?_⟩
  · rw [show kwInit pNonRaster = .ok stCex from by
      norm_num [kwInit, pNonRaster, pCex, stCex, idxWhere, gather,
        compress, npIsclose, normNeighbor, BAD_INDEX, BC_NODE_IS_CORE,
        BC_NODE_IS_FIXED_VALUE, BC_NODE_IS_CLOSED, List.enum,
        List.enumFrom, List.replicate,
        idK, abs_of_nonneg, abs_of_nonpos]]
    rfl
  · norm_num [kwInit, pZero, pCex, npIsclose]
  · norm_num [kwInit, pTiny, pCex, npIsclose, abs_of_nonneg]

/-- Claim C7 (code_bug evidence): reading the last-substep accessor on a
freshly constructed instance raises: the fallback path calls the
gradient/flux stage, which reads the working copy attribute `self.hnew`
that only `run_one_step` ever sets, so an `AttributeError` escapes instead
of the claimed lazily computed value. -/
theorem C7_accessor_raises_before_first_run :
    stCex.internalDtAttr = none ∧ stCex.hnewAttr = none ∧
    internalTimestep pCex stCex = .error PyErr.attributeError := by
  refine ⟨rfl, rfl, ?_⟩
  rw [internalTimestep]
  rw [show stCex.internalDtAttr = none from rfl]
  rw [calcGrads_noAttr pCex false false stCex rfl]

/-- Claim C8 (code_bug evidence): the topography-refresh operation never
succeeds: its first statement references the global name `CLOSED_BOUNDARY`,
which is bound nowhere in the module, so every call (direct, or through an
advance call with the topography flag set) raises `NameError`; invoking it
twice in a row therefore fails already at the first invocation, and no
idempotence on cached state is observable. -/
theorem C8_topo_refresh_raises :
    updateTopographicParams stCex = .error PyErr.nameError ∧
    runOneStep pCex 2 1 (Rain.scalar 0) true false stCex
      = .error PyErr.nameError := by
  refine ⟨rfl, ?_⟩
  rw [runOneStep]
  rfl

/-- Claim C9: the water-balance accessor raises precisely when the trace
is empty and returns the whole trace otherwise, and an advance call with
tracking enabled appends exactly one sample per sub-step taken (none when
tracking is disabled). -/
theorem C9_water_balance_accessor :
    (∀ st : KWState,
      (waterBalanceProp st = .error PyErr.valueError ↔
        st.waterBalance = []) ∧
      (st.waterBalance ≠ [] → waterBalanceProp st = .ok st.waterBalance)) ∧
    (∀ (p : Params) (fuel : ℕ) (dt : ℚ) (rain : Rain) (t : Bool)
        (st stf : KWState) (ds : List ℚ),
      runOneStep p fuel dt rain false t st = .ok (some (stf, ds)) →
      stf.waterBalance.length
        = st.waterBalance.length + (if t then ds.length else 0)) := by
  constructor
  · intro st
    by_cases hwb : st.waterBalance = []
    · refine ⟨⟨fun _ => hwb, fun _ => ?_⟩, fun hne => absurd hwb hne⟩
      rw [waterBalanceProp, if_pos hwb]
    · refine ⟨⟨fun h => ?_, fun h => absurd h hwb⟩, fun _ => ?_⟩
      · rw [waterBalanceProp, if_neg hwb] at h
        exact absurd h (by simp)
      · rw [waterBalanceProp, if_neg hwb]
  · intro p fuel dt rain t st stf ds h
    obtain ⟨st2, ef, hrec, hwb, _⟩ := runOneStep_ok_inv h
    have hcount := runLoop_wb_count p dt rain t fuel
      { st with hnewAttr := some (gather st.h st.active) } 0 st2 ef ds hrec
    rw [hwb]
    exact hcount

/-- Witness for C9: a state with a nonempty trace returns it, and the
tracked flat run appends exactly one sample for its one sub-step. -/
theorem C9_water_balance_accessor_witness :
    waterBalanceProp { stCex with waterBalance := [0] }
      = .ok ({ stCex with waterBalance := [0] } : KWState).waterBalance ∧
    stFlatAT.waterBalance.length
      = stFlat.waterBalance.length
        + (if true then ([3 / 10] : List ℚ).length else 0) :=
  ⟨(C9_water_balance_accessor.1 _).2 (by simp),
    C9_water_balance_accessor.2 pFlat 2 (3 / 10) (Rain.scalar 0) true
      stFlat stFlatAT [3 / 10] runOneStep_track_pFlat⟩

/-- Claim C10: the discharge arrays carry one extra trailing slot that is
zero at construction (given one status code per node) and stays zero
through the gradient/flux stage and through whole advance calls, because
flux writes land only at cached active indices, all strictly below the
node count; a lookup through the normalized missing-neighbor index `-1`
therefore always reads exactly zero. -/
theorem C10_trailing_slot_reads_zero :
    (∀ (p : Params) (st : KWState), p.status.length = p.N →
      kwInit p = .ok st → QSlotInv p.N st) ∧
    (∀ (N : ℕ) (p : Params) (t : Bool) (st : KWState) (l : List ℚ),
      QSlotInv N st → QSlotInv N (calcCore p t st l).2) ∧
    (∀ (N : ℕ) (p : Params) (fuel : ℕ) (dt : ℚ) (rain : Rain) (t : Bool)
        (st stf : KWState) (ds : List ℚ), QSlotInv N st →
      runOneStep p fuel dt rain false t st = .ok (some (stf, ds)) →
      QSlotInv N stf) ∧
    (∀ (N : ℕ) (st : KWState), QSlotInv N st →
      npGet st.qx (-1) = 0 ∧ npGet st.qy (-1) = 0) := by
  refine ⟨fun p st hs h => kwInit_qslot hs h,
    fun N p t st l hinv => calcCore_qslot p t l hinv,
    fun N p fuel dt rain t st stf ds hinv h => runOneStep_qslot hinv h,
    fun N st hinv => ⟨?_, ?_⟩⟩
  · exact npGet_neg_one_eq_zero hinv.1 hinv.2.2.1
  · exact npGet_neg_one_eq_zero hinv.2.1 hinv.2.2.2.1

/-- Witness for C10 on the concrete two-node instance. -/
theorem C10_trailing_slot_reads_zero_witness :
    npGet stCex.qx (-1) = 0 ∧ npGet stCex.qy (-1) = 0 :=
  C10_trailing_slot_reads_zero.2.2.2 pCex.N stCex
    (C10_trailing_slot_reads_zero.1 pCex stCex rfl kwInit_pCex)

end KinematicWave
